import Mathlib

/-!
Verification of the Image_Enhancer core (`src/processor.py`) against its
natural-language specification.

The development shallowly embeds the processor module:

* `ProcessingSettings` mirrors the Python dataclass (Python floats are
  modelled as rationals, Python ints as naturals);
* `get_output_dimensions` mirrors the dimension predictor;
* `process_image` mirrors the nine-pass pipeline, with the PIL raster
  primitives (Lanczos resize, Gaussian blur, unsharp mask, enhancers,
  median filter) abstracted as a structure `PILOps` of operations that
  preserve/produce the documented raster dimensions, while the alpha
  erosion pass (`MinFilter(3)` iterated on the alpha channel, with PIL's
  edge replication) is modelled concretely.  Python object aliasing of the
  input image is made explicit: `process_image` returns both the result
  and the final state of the caller's buffer;
* `collect_images` / `scanDir` mirror the discovery engine over an
  abstract filesystem, with `tempfile.mkdtemp` modelled by a counter.
-/

/-! ## Settings model (processor.py lines 28-60) -/

/-- Mirror of the `ProcessingSettings` dataclass: a plain record with the
source's default values and no validation of any kind. -/
structure ProcessingSettings where
  upscale_factor : ℕ := 4
  blur_radius : ℚ := mkRat 3 5
  sharpen_radius : ℚ := mkRat 6 5
  sharpen_amount : ℕ := 120
  sharpen_threshold : ℕ := 2
  downscale_factor : ℚ := mkRat 97 100
  edge_trim : ℕ := 0
  contrast : ℚ := 1
  saturation : ℚ := 1
  brightness : ℚ := 1
  noise_reduction : ℕ := 0
  output_format : String := "PNG"
  jpeg_quality : ℕ := 95
  deriving DecidableEq

/-- Mirror of `ProcessingSettings.copy`: field-by-field structural copy. -/
def ProcessingSettings.copy (s : ProcessingSettings) : ProcessingSettings :=
  { upscale_factor := s.upscale_factor
    blur_radius := s.blur_radius
    sharpen_radius := s.sharpen_radius
    sharpen_amount := s.sharpen_amount
    sharpen_threshold := s.sharpen_threshold
    downscale_factor := s.downscale_factor
    edge_trim := s.edge_trim
    contrast := s.contrast
    saturation := s.saturation
    brightness := s.brightness
    noise_reduction := s.noise_reduction
    output_format := s.output_format
    jpeg_quality := s.jpeg_quality }

/-- Modelled from the spec (section 3 table): the documented numeric range of
every settings field.  The source has no such check; this predicate exists to
compare the spec's validation story against the code. -/
def settingsInRange (s : ProcessingSettings) : Prop :=
  1 ≤ s.upscale_factor ∧ s.upscale_factor ≤ 8 ∧
  0 ≤ s.blur_radius ∧ s.blur_radius ≤ 3 ∧
  0 ≤ s.sharpen_radius ∧ s.sharpen_radius ≤ 5 ∧
  s.sharpen_amount ≤ 300 ∧ s.sharpen_threshold ≤ 10 ∧
  mkRat 4 5 ≤ s.downscale_factor ∧ s.downscale_factor ≤ 1 ∧
  0 ≤ s.contrast ∧ s.contrast ≤ 2 ∧
  0 ≤ s.saturation ∧ s.saturation ≤ 2 ∧
  0 ≤ s.brightness ∧ s.brightness ≤ 2 ∧
  s.noise_reduction ≤ 5 ∧ s.edge_trim ≤ 50 ∧
  s.output_format ∈ ["PNG", "JPEG", "WEBP"] ∧
  1 ≤ s.jpeg_quality ∧ s.jpeg_quality ≤ 100

instance (s : ProcessingSettings) : Decidable (settingsInRange s) := by
  unfold settingsInRange; infer_instance

/-! ## Dimension predictor (processor.py lines 207-217) -/

/-- Python's `int()` applied to a rational: truncation toward zero. -/
def pyInt (q : ℚ) : ℤ :=
  if q < 0 then -(⌊-q⌋) else ⌊q⌋

/-- Mirror of `get_output_dimensions(width, height, settings)`:
upscale applied when `upscale_factor > 1`, then the downscale shrink with
`max(1, int(w * downscale_factor))` when `downscale_factor < 1.0`. -/
def get_output_dimensions (width height : ℕ) (s : ProcessingSettings) : ℕ × ℕ :=
  let w := if s.upscale_factor > 1 then width * s.upscale_factor else width
  let h := if s.upscale_factor > 1 then height * s.upscale_factor else height
  if s.downscale_factor < 1 then
    (max 1 (pyInt ((w : ℚ) * s.downscale_factor)).toNat,
     max 1 (pyInt ((h : ℚ) * s.downscale_factor)).toNat)
  else (w, h)

/-- Modelled from the spec (section 4.3): `w = round(src_w × upscale_factor ×
downscale_factor)`, same for `h`, each floored to a minimum of 1. -/
def predictDimsSpecRound (width height : ℕ) (s : ProcessingSettings) : ℕ × ℕ :=
  (max 1 (round ((width : ℚ) * s.upscale_factor * s.downscale_factor)).toNat,
   max 1 (round ((height : ℚ) * s.upscale_factor * s.downscale_factor)).toNat)

/-- Closed-form of what the code actually computes for in-range settings:
the product truncated (floored) rather than rounded, with a minimum of 1. -/
def predictDimsFloor (width height : ℕ) (s : ProcessingSettings) : ℕ × ℕ :=
  (max 1 (pyInt ((width : ℚ) * s.upscale_factor * s.downscale_factor)).toNat,
   max 1 (pyInt ((height : ℚ) * s.upscale_factor * s.downscale_factor)).toNat)

/-! ## Pixel buffer model and PIL primitives -/

/-- An RGBA pixel: four 8-bit channels (range not enforced, as in the code). -/
abbrev Pixel : Type := ℕ × ℕ × ℕ × ℕ

/-- Alpha channel of a pixel. -/
def Pixel.alpha (p : Pixel) : ℕ := p.2.2.2

/-- A PIL image: raster dimensions, a PIL mode string and pixel data. -/
structure PImage where
  width : ℕ
  height : ℕ
  mode : String
  px : ℕ → ℕ → Pixel

/-- Alpha channel of an image as a function, as `img.getchannel('A')`. -/
def alphaOf (i : PImage) : ℕ → ℕ → ℕ :=
  fun x y => (i.px x y).alpha

/-- Mirror of `img.putalpha(a)`: replace the alpha channel in place. -/
def putalpha (i : PImage) (a : ℕ → ℕ → ℕ) : PImage :=
  { i with px := fun x y => ((i.px x y).1, (i.px x y).2.1, (i.px x y).2.2.1, a x y) }

/-- PIL `ImageFilter.MinFilter(3)` on a single channel: the minimum of the
3x3 window around each pixel, with PIL's border handling (the image is
expanded by replicating edge pixels, i.e. window coordinates are clamped). -/
def minFilter3 (w h : ℕ) (a : ℕ → ℕ → ℕ) : ℕ → ℕ → ℕ :=
  fun x y =>
    min (min (min (a (x - 1) (y - 1)) (a x (y - 1)))
             (min (a (min (x + 1) (w - 1)) (y - 1)) (a (x - 1) y)))
        (min (min (a x y) (a (min (x + 1) (w - 1)) y))
             (min (min (a (x - 1) (min (y + 1) (h - 1))) (a x (min (y + 1) (h - 1))))
                  (a (min (x + 1) (w - 1)) (min (y + 1) (h - 1)))))

/-- The erosion loop of pass 9: `eroded = alpha; for _ in range(n): eroded =
eroded.filter(MinFilter(3))`. -/
def erodeN (w h : ℕ) : ℕ → (ℕ → ℕ → ℕ) → (ℕ → ℕ → ℕ)
  | 0, a => a
  | n + 1, a => erodeN w h n (minFilter3 w h a)

/-- The PIL raster primitives used by the pipeline, abstracted as operations
together with their documented effect on raster dimensions and mode.  These
live outside the repository (they are library calls), so only the properties
the repository relies on are recorded: every filter/enhancer preserves the
raster size and mode, `resize` produces exactly the requested size, and
`convert('RGBA')` preserves the size and yields mode RGBA. -/
structure PILOps where
  convertRGBA : PImage → PImage
  resize : PImage → ℕ → ℕ → PImage
  gaussianBlur : PImage → ℚ → PImage
  unsharpMask : PImage → ℚ → ℕ → ℕ → PImage
  enhanceContrast : PImage → ℚ → PImage
  enhanceColor : PImage → ℚ → PImage
  enhanceBrightness : PImage → ℚ → PImage
  medianFilter : PImage → ℕ → PImage
  convertRGBA_width : ∀ i, (convertRGBA i).width = i.width
  convertRGBA_height : ∀ i, (convertRGBA i).height = i.height
  convertRGBA_mode : ∀ i, (convertRGBA i).mode = "RGBA"
  resize_width : ∀ i w h, (resize i w h).width = w
  resize_height : ∀ i w h, (resize i w h).height = h
  resize_mode : ∀ i w h, (resize i w h).mode = i.mode
  gaussianBlur_width : ∀ i r, (gaussianBlur i r).width = i.width
  gaussianBlur_height : ∀ i r, (gaussianBlur i r).height = i.height
  gaussianBlur_mode : ∀ i r, (gaussianBlur i r).mode = i.mode
  unsharpMask_width : ∀ i r p t, (unsharpMask i r p t).width = i.width
  unsharpMask_height : ∀ i r p t, (unsharpMask i r p t).height = i.height
  unsharpMask_mode : ∀ i r p t, (unsharpMask i r p t).mode = i.mode
  enhanceContrast_width : ∀ i f, (enhanceContrast i f).width = i.width
  enhanceContrast_height : ∀ i f, (enhanceContrast i f).height = i.height
  enhanceContrast_mode : ∀ i f, (enhanceContrast i f).mode = i.mode
  enhanceColor_width : ∀ i f, (enhanceColor i f).width = i.width
  enhanceColor_height : ∀ i f, (enhanceColor i f).height = i.height
  enhanceColor_mode : ∀ i f, (enhanceColor i f).mode = i.mode
  enhanceBrightness_width : ∀ i f, (enhanceBrightness i f).width = i.width
  enhanceBrightness_height : ∀ i f, (enhanceBrightness i f).height = i.height
  enhanceBrightness_mode : ∀ i f, (enhanceBrightness i f).mode = i.mode
  medianFilter_width : ∀ i k, (medianFilter i k).width = i.width
  medianFilter_height : ∀ i k, (medianFilter i k).height = i.height
  medianFilter_mode : ∀ i k, (medianFilter i k).mode = i.mode

/-! ## The pipeline (processor.py lines 145-204)

Every PIL call that produces a new image object is tagged by setting the
boolean of the running `PImage × Bool` pair to `true`; the boolean records
whether `img` no longer aliases the caller's input object.  `putalpha` in
pass 9 is the one in-place mutation of the function. -/

/-- Mode normalisation: `if img.mode != 'RGBA': img = img.convert('RGBA')`. -/
def passConvert (ops : PILOps) (img0 : PImage) : PImage × Bool :=
  if img0.mode ≠ "RGBA" then (ops.convertRGBA img0, true) else (img0, false)

/-- Pass 1: upscale by `upscale_factor` with Lanczos when the factor is `> 1`. -/
def passUpscale (ops : PILOps) (s : ProcessingSettings) (st : PImage × Bool) :
    PImage × Bool :=
  if s.upscale_factor > 1 then
    (ops.resize st.1 (st.1.width * s.upscale_factor) (st.1.height * s.upscale_factor),
     true)
  else st

/-- Pass 2: Gaussian blur when `blur_radius > 0`. -/
def passBlur (ops : PILOps) (s : ProcessingSettings) (st : PImage × Bool) :
    PImage × Bool :=
  if s.blur_radius > 0 then (ops.gaussianBlur st.1 s.blur_radius, true) else st

/-- Pass 3: unsharp mask when `sharpen_amount > 0`. -/
def passSharpen (ops : PILOps) (s : ProcessingSettings) (st : PImage × Bool) :
    PImage × Bool :=
  if s.sharpen_amount > 0 then
    (ops.unsharpMask st.1 s.sharpen_radius s.sharpen_amount s.sharpen_threshold, true)
  else st

/-- Pass 4: downscale with `max(1, int(dim * downscale_factor))` when the
factor is `< 1.0`. -/
def passDownscale (ops : PILOps) (s : ProcessingSettings) (st : PImage × Bool) :
    PImage × Bool :=
  if s.downscale_factor < 1 then
    (ops.resize st.1
      (max 1 (pyInt ((st.1.width : ℚ) * s.downscale_factor)).toNat)
      (max 1 (pyInt ((st.1.height : ℚ) * s.downscale_factor)).toNat), true)
  else st

/-- Pass 5: contrast enhancement when the factor is not `1.0`. -/
def passContrast (ops : PILOps) (s : ProcessingSettings) (st : PImage × Bool) :
    PImage × Bool :=
  if s.contrast ≠ 1 then (ops.enhanceContrast st.1 s.contrast, true) else st

/-- Pass 6: saturation enhancement when the factor is not `1.0`. -/
def passSaturation (ops : PILOps) (s : ProcessingSettings) (st : PImage × Bool) :
    PImage × Bool :=
  if s.saturation ≠ 1 then (ops.enhanceColor st.1 s.saturation, true) else st

/-- Pass 7: brightness enhancement when the factor is not `1.0`. -/
def passBrightness (ops : PILOps) (s : ProcessingSettings) (st : PImage × Bool) :
    PImage × Bool :=
  if s.brightness ≠ 1 then (ops.enhanceBrightness st.1 s.brightness, true) else st

/-- Pass 8: median filter of kernel size `2 * noise_reduction + 1` when the
strength is `> 0`. -/
def passNoise (ops : PILOps) (s : ProcessingSettings) (st : PImage × Bool) :
    PImage × Bool :=
  if s.noise_reduction > 0 then
    (ops.medianFilter st.1 (s.noise_reduction * 2 + 1), true)
  else st

/-- Passes 1-8 of `process_image` (everything before the erosion pass),
chained in source order after the RGBA normalisation. -/
def pipelineBody (ops : PILOps) (img0 : PImage) (s : ProcessingSettings) :
    PImage × Bool :=
  passNoise ops s (passBrightness ops s (passSaturation ops s (passContrast ops s
    (passDownscale ops s (passSharpen ops s (passBlur ops s
      (passUpscale ops s (passConvert ops img0))))))))

/-- Mirror of `process_image(img, settings)`.  Returns the result image
together with the final state of the caller's input object: pass 9
(`img.putalpha(eroded)`) mutates `img` in place, so when no earlier pass has
replaced `img` by a fresh object the caller's buffer is mutated too. -/
def process_image (ops : PILOps) (img0 : PImage) (s : ProcessingSettings) :
    PImage × PImage :=
  let st := pipelineBody ops img0 s
  if s.edge_trim > 0 ∧ st.1.mode = "RGBA" then
    let eroded := erodeN st.1.width st.1.height s.edge_trim (alphaOf st.1)
    let img' := putalpha st.1 eroded
    (img', if st.2 then img0 else img')
  else (st.1, img0)

/-! ## Gate analysis: which settings make every pass 1-8 a no-op -/

/-- All gates of passes 1-8 are at their skip value: this is exactly the
condition under which no pass before the erosion allocates a new image. -/
def gatesAllOff (s : ProcessingSettings) : Prop :=
  ¬(s.upscale_factor > 1) ∧ ¬(s.blur_radius > 0) ∧ ¬(s.sharpen_amount > 0) ∧
  ¬(s.downscale_factor < 1) ∧ s.contrast = 1 ∧ s.saturation = 1 ∧
  s.brightness = 1 ∧ ¬(s.noise_reduction > 0)

instance (s : ProcessingSettings) : Decidable (gatesAllOff s) := by
  unfold gatesAllOff; infer_instance

/-! ## A concrete instance of the PIL primitives, used for witnesses -/

/-- A concrete (deliberately simple) instance of the PIL primitives: it
satisfies every recorded dimension/mode property and lets closed statements
about the pipeline evaluate. -/
def trivialOps : PILOps where
  convertRGBA i := { i with mode := "RGBA" }
  resize i w h := { width := w, height := h, mode := i.mode, px := i.px }
  gaussianBlur i _ := i
  unsharpMask i _ _ _ := i
  enhanceContrast i _ := i
  enhanceColor i _ := i
  enhanceBrightness i _ := i
  medianFilter i _ := i
  convertRGBA_width := fun _ => rfl
  convertRGBA_height := fun _ => rfl
  convertRGBA_mode := fun _ => rfl
  resize_width := fun _ _ _ => rfl
  resize_height := fun _ _ _ => rfl
  resize_mode := fun _ _ _ => rfl
  gaussianBlur_width := fun _ _ => rfl
  gaussianBlur_height := fun _ _ => rfl
  gaussianBlur_mode := fun _ _ => rfl
  unsharpMask_width := fun _ _ _ _ => rfl
  unsharpMask_height := fun _ _ _ _ => rfl
  unsharpMask_mode := fun _ _ _ _ => rfl
  enhanceContrast_width := fun _ _ => rfl
  enhanceContrast_height := fun _ _ => rfl
  enhanceContrast_mode := fun _ _ => rfl
  enhanceColor_width := fun _ _ => rfl
  enhanceColor_height := fun _ _ => rfl
  enhanceColor_mode := fun _ _ => rfl
  enhanceBrightness_width := fun _ _ => rfl
  enhanceBrightness_height := fun _ _ => rfl
  enhanceBrightness_mode := fun _ _ => rfl
  medianFilter_width := fun _ _ => rfl
  medianFilter_height := fun _ _ => rfl
  medianFilter_mode := fun _ _ => rfl

/-! ## Encode parameters of save and estimate (processor.py lines 220-262)

The actual byte encoding is performed by PIL; what the repository chooses is
the format and the quality / compression-effort parameters it passes.  The
two functions are embedded as the encode call each one issues. -/

/-- The parameters of one PIL encode call. -/
inductive EncodeCall where
  | jpeg (quality : ℕ)
  | webp (quality : ℕ)
  | png (compress_level : ℕ)
  deriving DecidableEq

/-- ASCII uppercasing, as Python's `str.upper()` on format strings. -/
def upperStr (s : String) : String :=
  String.mk (s.toList.map Char.toUpper)

/-- Mirror of the encode call issued by `save_image`: JPEG at
`settings.jpeg_quality`, WEBP at `settings.jpeg_quality`, PNG at
`compress_level=1`. -/
def save_image_call (s : ProcessingSettings) : EncodeCall :=
  let fmt := upperStr s.output_format
  if fmt = "JPEG" ∨ fmt = "JPG" then .jpeg s.jpeg_quality
  else if fmt = "WEBP" then .webp s.jpeg_quality
  else .png 1

/-- Mirror of the encode call issued by `estimate_output_size`: JPEG at
`settings.jpeg_quality`, WEBP at `settings.jpeg_quality`, PNG at
`compress_level=6`. -/
def estimate_output_size_call (s : ProcessingSettings) : EncodeCall :=
  let fmt := upperStr s.output_format
  if fmt = "JPEG" ∨ fmt = "JPG" then .jpeg s.jpeg_quality
  else if fmt = "WEBP" then .webp s.jpeg_quality
  else .png 6

/-- PNG compression effort of an encode call (`none` for JPEG/WEBP). -/
def EncodeCall.pngLevel : EncodeCall → Option ℕ
  | .png l => some l
  | _ => none

/-! ## Input discovery engine (processor.py lines 86-142)

The filesystem is abstracted as a map from path strings to nodes; a ZIP
node carries the result of `zipfile.is_zipfile`, whether extraction
succeeds, and its content tree.  `tempfile.mkdtemp` is modelled with a
counter producing the `imgupscaler_` prefixed names; the ghost field
`created` records every temporary directory ever created so that the
cleanup-handle claim can be stated.  String helpers are implemented over
character lists so that concrete runs evaluate in the kernel. -/

/-- The supported image extensions set from the top of processor.py. -/
def SUPPORTED_EXTENSIONS : List String :=
  [".png", ".jpg", ".jpeg", ".bmp", ".tiff", ".tif", ".webp", ".gif"]

/-- ASCII lowercasing, as Python's `str.lower()` on extension strings. -/
def lowerStr (s : String) : String :=
  String.mk (s.toList.map Char.toLower)

/-- Drop the leading and trailing characters satisfying a predicate. -/
def stripBy (p : Char → Bool) (s : String) : String :=
  String.mk (((s.toList.dropWhile p).reverse.dropWhile p).reverse)

/-- Whitespace characters stripped by Python's `str.strip()`. -/
def isPySpace (c : Char) : Bool :=
  c = ' ' ∨ c = '\t' ∨ c = '\n' ∨ c = '\r' ∨ c = '\x0b' ∨ c = '\x0c'

/-- Mirror of `raw_path.strip().strip('"').strip("'")`. -/
def normPath (raw : String) : String :=
  stripBy (fun a => a = '\'') (stripBy (fun a => a = '"') (stripBy isPySpace raw))

/-- Mirror of `os.path.basename` for the POSIX-style paths of the model. -/
def fileName (p : String) : String :=
  String.mk ((p.toList.reverse.takeWhile (fun c => c ≠ '/')).reverse)

/-- Mirror of `os.path.splitext(name)[1]`: the suffix from the last dot of
the name, empty when there is no dot or only dots precede the last dot. -/
def extOfName (name : String) : String :=
  let cs := name.toList
  let rev := cs.reverse
  let after := rev.takeWhile (fun c => c ≠ '.')
  if after.length = cs.length then ""
  else if (rev.drop (after.length + 1)).all (fun c => c = '.') then ""
  else String.mk ('.' :: after.reverse)

/-- The entries of a directory (or of an extracted archive) in walk order,
as a first-order forest: `entry name isZip extractOk contents rest` is a
file called `name` followed by the remaining entries `rest`; for files that
are ZIP containers, `isZip` is the result of `zipfile.is_zipfile`,
`extractOk` tells whether extraction succeeds and `contents` is the
archive's content tree. -/
inductive ZForest where
  | nil
  | entry (name : String) (isZip : Bool) (extractOk : Bool)
      (contents : ZForest) (rest : ZForest)

/-- What a user-supplied path resolves to in the model filesystem. -/
inductive PathNode where
  | missing
  | dirNode (entries : ZForest)
  | fileNode (isZip : Bool) (extractOk : Bool) (entries : ZForest)

/-- The mutable state of one `collect_images` call: the `images` and
`temp_dirs` result lists, the `seen` set, the `mkdtemp` counter and the
ghost list of every temporary directory created. -/
structure ScanState where
  images : List String
  temp_dirs : List String
  seen : List String
  counter : ℕ
  created : List String
  deriving DecidableEq

/-- The empty state at the start of `collect_images`. -/
def initState : ScanState :=
  { images := [], temp_dirs := [], seen := [], counter := 0, created := [] }

/-- The name `tempfile.mkdtemp(prefix="imgupscaler_")` yields next. -/
def tmpName (st : ScanState) : String :=
  "/tmp/imgupscaler_" ++ toString st.counter

/-- Create a fresh temporary directory: bump the counter and record the
directory in the ghost `created` list. -/
def mkdtemp (st : ScanState) : ScanState :=
  { st with counter := st.counter + 1, created := st.created ++ [tmpName st] }

/-- Record an image path: `images.append(fp); seen.add(fp)`. -/
def imageAdd (fp : String) (st : ScanState) : ScanState :=
  { st with images := st.images ++ [fp], seen := fp :: st.seen }

/-- Record a path as seen: `seen.add(fp)`. -/
def seenAdd (fp : String) (st : ScanState) : ScanState :=
  { st with seen := fp :: st.seen }

/-- Record a temporary directory in the result: `temp_dirs.append(tmp)`. -/
def tempAdd (t : String) (st : ScanState) : ScanState :=
  { st with temp_dirs := st.temp_dirs ++ [t] }

/-- Mirror of `_scan_directory`, walking the entries in order: a supported
image not yet seen is appended to `images`; a `.zip`-named entry not yet
seen is marked seen, and when `is_zipfile` accepts it a temp dir is created
and appended to `temp_dirs`, the archive extracted there and the result
scanned recursively (an extraction failure leaves the already-appended
temp dir in place). -/
def scanForest (base : String) : ZForest → ScanState → ScanState
  | .nil, st => st
  | .entry name isZip extractOk contents rest, st =>
    scanForest base rest (
      if (lowerStr (extOfName name)) ∈ SUPPORTED_EXTENSIONS ∧
          (base ++ "/" ++ name) ∉ st.seen then
        imageAdd (base ++ "/" ++ name) st
      else if (lowerStr (extOfName name)) = ".zip" ∧
          (base ++ "/" ++ name) ∉ st.seen then
        if isZip then
          if extractOk then
            scanForest (tmpName (seenAdd (base ++ "/" ++ name) st)) contents
              (tempAdd (tmpName (seenAdd (base ++ "/" ++ name) st))
                (mkdtemp (seenAdd (base ++ "/" ++ name) st)))
          else
            tempAdd (tmpName (seenAdd (base ++ "/" ++ name) st))
              (mkdtemp (seenAdd (base ++ "/" ++ name) st))
        else seenAdd (base ++ "/" ++ name) st
      else st)

/-- Mirror of one iteration of the `collect_images` loop: strip the raw
path, skip missing paths, walk directories, extract-and-walk ZIP files
(temp dir appended before extraction, `BadZipFile` skipped), and append a
not-yet-seen supported direct file. -/
def collectStep (fs : String → PathNode) (st : ScanState) (raw : String) :
    ScanState :=
  match fs (normPath raw) with
  | .missing => st
  | .dirNode entries => scanForest (normPath raw) entries st
  | .fileNode isZip extractOk entries =>
    if isZip then
      if extractOk then
        scanForest (tmpName st) entries (tempAdd (tmpName st) (mkdtemp st))
      else tempAdd (tmpName st) (mkdtemp st)
    else
      if (lowerStr (extOfName (fileName (normPath raw)))) ∈ SUPPORTED_EXTENSIONS ∧
          normPath raw ∉ st.seen then
        imageAdd (normPath raw) st
      else st

/-- Mirror of `collect_images(paths)`: fold the per-path loop body over the
input list starting from the empty state. -/
def collect_images (fs : String → PathNode) (paths : List String) : ScanState :=
  paths.foldl (collectStep fs) initState

/-- A file name whose extension makes the walk do something: a supported
image extension or `.zip`. -/
def relevantName (name : String) : Prop :=
  lowerStr (extOfName name) ∈ SUPPORTED_EXTENSIONS ∨ lowerStr (extOfName name) = ".zip"

instance (name : String) : Decidable (relevantName name) := by
  unfold relevantName; infer_instance

/-- The walk paths of the top-level entries of a forest whose extension is
relevant (supported image or `.zip`). -/
def topRelevantPaths (base : String) : ZForest → List String
  | .nil => []
  | .entry name _ _ _ rest =>
    if relevantName name then (base ++ "/" ++ name) :: topRelevantPaths base rest
    else topRelevantPaths base rest

/-- Invariant of the discovery state: the image list has no duplicate path
strings, every image is in the seen set, and the ghost list of created
temporary directories coincides with the `temp_dirs` result list. -/
def ScanInv (st : ScanState) : Prop :=
  st.images.Nodup ∧ (∀ i ∈ st.images, i ∈ st.seen) ∧ st.created = st.temp_dirs

/-! ## Concrete fixtures used by witnesses and counterexamples -/

/-- A 100x100 opaque RGBA buffer. -/
def img100 : PImage :=
  { width := 100, height := 100, mode := "RGBA", px := fun _ _ => (0, 0, 0, 255) }

/-- A 1x1 opaque RGBA buffer. -/
def imgOpaque : PImage :=
  { width := 1, height := 1, mode := "RGBA", px := fun _ _ => (0, 0, 0, 255) }

/-- A 2x1 RGBA buffer: one opaque pixel beside one transparent pixel. -/
def imgHalo : PImage :=
  { width := 2, height := 1, mode := "RGBA",
    px := fun x _ => if x = 0 then (1, 1, 1, 255) else (0, 0, 0, 0) }

/-- Settings with every filter at its no-op value. -/
def noopSettings : ProcessingSettings :=
  { upscale_factor := 1, blur_radius := 0, sharpen_amount := 0,
    downscale_factor := 1, contrast := 1, saturation := 1, brightness := 1,
    noise_reduction := 0, edge_trim := 0 }

/-- The no-op settings with one pixel of edge trim. -/
def trimSettings : ProcessingSettings :=
  { noopSettings with edge_trim := 1 }

/-- The spec's concrete scenario: upscale 2x, downscale 0.9, all other
filters off. -/
def scenarioSettings : ProcessingSettings :=
  { upscale_factor := 2, blur_radius := 0, sharpen_amount := 0,
    downscale_factor := mkRat 9 10, contrast := 1, saturation := 1, brightness := 1,
    noise_reduction := 0, edge_trim := 0 }

/-- In-range settings exposing truncation against rounding: no upscale and
the default 0.97 downscale. -/
def truncSettings : ProcessingSettings :=
  { upscale_factor := 1 }

/-- A directly constructed settings value with an out-of-range upscale. -/
def badSettings : ProcessingSettings :=
  { upscale_factor := 100 }

/-- Default settings (PNG output). -/
def pngSettings : ProcessingSettings := {}

/-- A filesystem with a single valid ZIP archive holding one image. -/
def fsZip : String → PathNode := fun s =>
  if s = "a.zip" then .fileNode true true (.entry "x.png" false true .nil .nil)
  else .missing

/-- A filesystem with a single directory holding one image. -/
def fsDir : String → PathNode := fun s =>
  if s = "d" then .dirNode (.entry "x.png" false true .nil .nil) else .missing

/-- A filesystem in which the same image file is reachable both under the
relative name `a.png` and under the absolute name `/cwd/a.png`. -/
def fsRel : String → PathNode := fun s =>
  if s = "a.png" ∨ s = "/cwd/a.png" then .fileNode false true .nil else .missing

/-- Modelled from the spec: the path resolution (`resolved absolute path`)
the spec keys deduplication on, for the working directory `/cwd` of the
`fsRel` filesystem.  The source never resolves paths, so resolution exists
only on the spec side of the comparison. -/
def resolveModel : String → String := fun s =>
  if s = "a.png" then "/cwd/a.png" else s

/-- A filesystem with a file that `zipfile.is_zipfile` accepts but whose
extraction fails with `BadZipFile`. -/
def fsBadZip : String → PathNode := fun s =>
  if s = "b.zip" then .fileNode true false .nil else .missing


/-! ## Raster-dimension behaviour of the passes -/

@[simp] theorem passConvert_width (ops : PILOps) (img0 : PImage) :
    (passConvert ops img0).1.width = img0.width := by
  unfold passConvert; split <;> simp [ops.convertRGBA_width]

@[simp] theorem passConvert_height (ops : PILOps) (img0 : PImage) :
    (passConvert ops img0).1.height = img0.height := by
  unfold passConvert; split <;> simp [ops.convertRGBA_height]

@[simp] theorem passConvert_mode (ops : PILOps) (img0 : PImage) :
    (passConvert ops img0).1.mode = "RGBA" := by
  unfold passConvert
  split
  · exact ops.convertRGBA_mode img0
  · next hc => simpa using hc

@[simp] theorem passUpscale_width (ops : PILOps) (s : ProcessingSettings)
    (st : PImage × Bool) :
    (passUpscale ops s st).1.width =
      if s.upscale_factor > 1 then st.1.width * s.upscale_factor else st.1.width := by
  unfold passUpscale; split <;> simp_all [ops.resize_width]

@[simp] theorem passUpscale_height (ops : PILOps) (s : ProcessingSettings)
    (st : PImage × Bool) :
    (passUpscale ops s st).1.height =
      if s.upscale_factor > 1 then st.1.height * s.upscale_factor else st.1.height := by
  unfold passUpscale; split <;> simp_all [ops.resize_height]

@[simp] theorem passUpscale_mode (ops : PILOps) (s : ProcessingSettings)
    (st : PImage × Bool) : (passUpscale ops s st).1.mode = st.1.mode := by
  unfold passUpscale; split <;> simp [ops.resize_mode]

@[simp] theorem passBlur_width (ops : PILOps) (s : ProcessingSettings)
    (st : PImage × Bool) : (passBlur ops s st).1.width = st.1.width := by
  unfold passBlur; split <;> simp [ops.gaussianBlur_width]

@[simp] theorem passBlur_height (ops : PILOps) (s : ProcessingSettings)
    (st : PImage × Bool) : (passBlur ops s st).1.height = st.1.height := by
  unfold passBlur; split <;> simp [ops.gaussianBlur_height]

@[simp] theorem passBlur_mode (ops : PILOps) (s : ProcessingSettings)
    (st : PImage × Bool) : (passBlur ops s st).1.mode = st.1.mode := by
  unfold passBlur; split <;> simp [ops.gaussianBlur_mode]

@[simp] theorem passSharpen_width (ops : PILOps) (s : ProcessingSettings)
    (st : PImage × Bool) : (passSharpen ops s st).1.width = st.1.width := by
  unfold passSharpen; split <;> simp [ops.unsharpMask_width]

@[simp] theorem passSharpen_height (ops : PILOps) (s : ProcessingSettings)
    (st : PImage × Bool) : (passSharpen ops s st).1.height = st.1.height := by
  unfold passSharpen; split <;> simp [ops.unsharpMask_height]

@[simp] theorem passSharpen_mode (ops : PILOps) (s : ProcessingSettings)
    (st : PImage × Bool) : (passSharpen ops s st).1.mode = st.1.mode := by
  unfold passSharpen; split <;> simp [ops.unsharpMask_mode]

@[simp] theorem passDownscale_width (ops : PILOps) (s : ProcessingSettings)
    (st : PImage × Bool) :
    (passDownscale ops s st).1.width =
      if s.downscale_factor < 1 then
        max 1 (pyInt ((st.1.width : ℚ) * s.downscale_factor)).toNat
      else st.1.width := by
  unfold passDownscale; split <;> simp_all [ops.resize_width]

@[simp] theorem passDownscale_height (ops : PILOps) (s : ProcessingSettings)
    (st : PImage × Bool) :
    (passDownscale ops s st).1.height =
      if s.downscale_factor < 1 then
        max 1 (pyInt ((st.1.height : ℚ) * s.downscale_factor)).toNat
      else st.1.height := by
  unfold passDownscale; split <;> simp_all [ops.resize_height]

@[simp] theorem passDownscale_mode (ops : PILOps) (s : ProcessingSettings)
    (st : PImage × Bool) : (passDownscale ops s st).1.mode = st.1.mode := by
  unfold passDownscale; split <;> simp [ops.resize_mode]

@[simp] theorem passContrast_width (ops : PILOps) (s : ProcessingSettings)
    (st : PImage × Bool) : (passContrast ops s st).1.width = st.1.width := by
  unfold passContrast; split <;> simp [ops.enhanceContrast_width]

@[simp] theorem passContrast_height (ops : PILOps) (s : ProcessingSettings)
    (st : PImage × Bool) : (passContrast ops s st).1.height = st.1.height := by
  unfold passContrast; split <;> simp [ops.enhanceContrast_height]

@[simp] theorem passContrast_mode (ops : PILOps) (s : ProcessingSettings)
    (st : PImage × Bool) : (passContrast ops s st).1.mode = st.1.mode := by
  unfold passContrast; split <;> simp [ops.enhanceContrast_mode]

@[simp] theorem passSaturation_width (ops : PILOps) (s : ProcessingSettings)
    (st : PImage × Bool) : (passSaturation ops s st).1.width = st.1.width := by
  unfold passSaturation; split <;> simp [ops.enhanceColor_width]

@[simp] theorem passSaturation_height (ops : PILOps) (s : ProcessingSettings)
    (st : PImage × Bool) : (passSaturation ops s st).1.height = st.1.height := by
  unfold passSaturation; split <;> simp [ops.enhanceColor_height]

@[simp] theorem passSaturation_mode (ops : PILOps) (s : ProcessingSettings)
    (st : PImage × Bool) : (passSaturation ops s st).1.mode = st.1.mode := by
  unfold passSaturation; split <;> simp [ops.enhanceColor_mode]

@[simp] theorem passBrightness_width (ops : PILOps) (s : ProcessingSettings)
    (st : PImage × Bool) : (passBrightness ops s st).1.width = st.1.width := by
  unfold passBrightness; split <;> simp [ops.enhanceBrightness_width]

@[simp] theorem passBrightness_height (ops : PILOps) (s : ProcessingSettings)
    (st : PImage × Bool) : (passBrightness ops s st).1.height = st.1.height := by
  unfold passBrightness; split <;> simp [ops.enhanceBrightness_height]

@[simp] theorem passBrightness_mode (ops : PILOps) (s : ProcessingSettings)
    (st : PImage × Bool) : (passBrightness ops s st).1.mode = st.1.mode := by
  unfold passBrightness; split <;> simp [ops.enhanceBrightness_mode]

@[simp] theorem passNoise_width (ops : PILOps) (s : ProcessingSettings)
    (st : PImage × Bool) : (passNoise ops s st).1.width = st.1.width := by
  unfold passNoise; split <;> simp [ops.medianFilter_width]

@[simp] theorem passNoise_height (ops : PILOps) (s : ProcessingSettings)
    (st : PImage × Bool) : (passNoise ops s st).1.height = st.1.height := by
  unfold passNoise; split <;> simp [ops.medianFilter_height]

@[simp] theorem passNoise_mode (ops : PILOps) (s : ProcessingSettings)
    (st : PImage × Bool) : (passNoise ops s st).1.mode = st.1.mode := by
  unfold passNoise; split <;> simp [ops.medianFilter_mode]

/-- After passes 1-8 the image mode is always RGBA. -/
theorem pipelineBody_mode (ops : PILOps) (img0 : PImage) (s : ProcessingSettings) :
    (pipelineBody ops img0 s).1.mode = "RGBA" := by
  simp [pipelineBody]

/-- The raster dimensions after passes 1-8 are exactly the predictor's pair:
only the upscale and downscale passes change the raster size. -/
theorem pipelineBody_dims (ops : PILOps) (img0 : PImage) (s : ProcessingSettings) :
    ((pipelineBody ops img0 s).1.width, (pipelineBody ops img0 s).1.height) =
      get_output_dimensions img0.width img0.height s := by
  simp only [pipelineBody, passNoise_width, passNoise_height, passBrightness_width,
    passBrightness_height, passSaturation_width, passSaturation_height,
    passContrast_width, passContrast_height, passDownscale_width, passDownscale_height,
    passSharpen_width, passSharpen_height, passBlur_width, passBlur_height,
    passUpscale_width, passUpscale_height, passConvert_width, passConvert_height,
    get_output_dimensions]
  split_ifs <;> rfl

@[simp] theorem putalpha_width (i : PImage) (a : ℕ → ℕ → ℕ) :
    (putalpha i a).width = i.width := rfl

@[simp] theorem putalpha_height (i : PImage) (a : ℕ → ℕ → ℕ) :
    (putalpha i a).height = i.height := rfl

@[simp] theorem putalpha_mode (i : PImage) (a : ℕ → ℕ → ℕ) :
    (putalpha i a).mode = i.mode := rfl

/-- The erosion pass does not change raster dimensions, so the full
pipeline's output dimensions coincide with passes 1-8. -/
theorem process_image_dims (ops : PILOps) (img0 : PImage) (s : ProcessingSettings) :
    ((process_image ops img0 s).1.width, (process_image ops img0 s).1.height) =
      get_output_dimensions img0.width img0.height s := by
  by_cases h : s.edge_trim > 0 ∧ (pipelineBody ops img0 s).1.mode = "RGBA"
  · simp only [process_image, h, if_true, putalpha_width, putalpha_height]
    exact pipelineBody_dims ops img0 s
  · simp only [process_image, h, if_false]
    exact pipelineBody_dims ops img0 s

/-! ## Erosion lemmas -/

@[simp] theorem alphaOf_putalpha (i : PImage) (a : ℕ → ℕ → ℕ) :
    alphaOf (putalpha i a) = a := by
  funext x y; rfl

theorem minFilter3_le_self (w h : ℕ) (a : ℕ → ℕ → ℕ) (x y : ℕ) :
    minFilter3 w h a x y ≤ a x y := by
  simp only [minFilter3]
  exact le_trans (min_le_right _ _) (le_trans (min_le_left _ _) (min_le_left _ _))

theorem minFilter3_mono (w h : ℕ) {a b : ℕ → ℕ → ℕ}
    (hab : ∀ x y, a x y ≤ b x y) (x y : ℕ) :
    minFilter3 w h a x y ≤ minFilter3 w h b x y := by
  simp only [minFilter3]
  exact min_le_min
    (min_le_min (min_le_min (hab _ _) (hab _ _)) (min_le_min (hab _ _) (hab _ _)))
    (min_le_min (min_le_min (hab _ _) (hab _ _))
      (min_le_min (min_le_min (hab _ _) (hab _ _)) (hab _ _)))

theorem erodeN_mono (w h : ℕ) (n : ℕ) {a b : ℕ → ℕ → ℕ}
    (hab : ∀ x y, a x y ≤ b x y) (x y : ℕ) :
    erodeN w h n a x y ≤ erodeN w h n b x y := by
  induction n generalizing a b with
  | zero => exact hab x y
  | succ m ih => exact ih (minFilter3_mono w h hab)

/-- One more erosion pass can only shrink the alpha channel pointwise. -/
theorem erodeN_succ_le (w h : ℕ) (k : ℕ) (a : ℕ → ℕ → ℕ) (x y : ℕ) :
    erodeN w h (k + 1) a x y ≤ erodeN w h k a x y := by
  show erodeN w h k (minFilter3 w h a) x y ≤ erodeN w h k a x y
  exact erodeN_mono w h k (fun u v => minFilter3_le_self w h a u v) x y

/-- When the input is already RGBA and every gate is off, passes 1-8 return
the caller's object untouched. -/
theorem pipelineBody_noop (ops : PILOps) (img0 : PImage) (s : ProcessingSettings)
    (hm : img0.mode = "RGBA") (hg : gatesAllOff s) :
    pipelineBody ops img0 s = (img0, false) := by
  obtain ⟨h1, h2, h3, h4, h5, h6, h7, h8⟩ := hg
  simp [pipelineBody, passConvert, passUpscale, passBlur, passSharpen,
    passDownscale, passContrast, passSaturation, passBrightness, passNoise,
    hm, h1, h2, h3, h4, h5, h6, h7, h8]

theorem passConvert_snd_false (ops : PILOps) (img0 : PImage)
    (h : (passConvert ops img0).2 = false) :
    passConvert ops img0 = (img0, false) ∧ img0.mode = "RGBA" := by
  by_cases hc : img0.mode ≠ "RGBA"
  · exact absurd h (by simp [passConvert, hc])
  · exact ⟨by simp [passConvert, hc], by simpa using hc⟩

theorem passUpscale_snd_false (ops : PILOps) (s : ProcessingSettings)
    (st : PImage × Bool) (h : (passUpscale ops s st).2 = false) :
    passUpscale ops s st = st ∧ ¬(s.upscale_factor > 1) := by
  by_cases hc : s.upscale_factor > 1
  · exact absurd h (by simp [passUpscale, hc])
  · exact ⟨by simp [passUpscale, hc], hc⟩

theorem passBlur_snd_false (ops : PILOps) (s : ProcessingSettings)
    (st : PImage × Bool) (h : (passBlur ops s st).2 = false) :
    passBlur ops s st = st ∧ ¬(s.blur_radius > 0) := by
  by_cases hc : s.blur_radius > 0
  · exact absurd h (by simp [passBlur, hc])
  · exact ⟨by simp [passBlur, hc], hc⟩

theorem passSharpen_snd_false (ops : PILOps) (s : ProcessingSettings)
    (st : PImage × Bool) (h : (passSharpen ops s st).2 = false) :
    passSharpen ops s st = st ∧ ¬(s.sharpen_amount > 0) := by
  by_cases hc : s.sharpen_amount > 0
  · exact absurd h (by simp [passSharpen, hc])
  · exact ⟨by simp [passSharpen, hc], hc⟩

theorem passDownscale_snd_false (ops : PILOps) (s : ProcessingSettings)
    (st : PImage × Bool) (h : (passDownscale ops s st).2 = false) :
    passDownscale ops s st = st ∧ ¬(s.downscale_factor < 1) := by
  by_cases hc : s.downscale_factor < 1
  · exact absurd h (by simp [passDownscale, hc])
  · exact ⟨by simp [passDownscale, hc], hc⟩

theorem passContrast_snd_false (ops : PILOps) (s : ProcessingSettings)
    (st : PImage × Bool) (h : (passContrast ops s st).2 = false) :
    passContrast ops s st = st ∧ s.contrast = 1 := by
  by_cases hc : s.contrast ≠ 1
  · exact absurd h (by simp [passContrast, hc])
  · exact ⟨by simp [passContrast, hc], by simpa using hc⟩

theorem passSaturation_snd_false (ops : PILOps) (s : ProcessingSettings)
    (st : PImage × Bool) (h : (passSaturation ops s st).2 = false) :
    passSaturation ops s st = st ∧ s.saturation = 1 := by
  by_cases hc : s.saturation ≠ 1
  · exact absurd h (by simp [passSaturation, hc])
  · exact ⟨by simp [passSaturation, hc], by simpa using hc⟩

theorem passBrightness_snd_false (ops : PILOps) (s : ProcessingSettings)
    (st : PImage × Bool) (h : (passBrightness ops s st).2 = false) :
    passBrightness ops s st = st ∧ s.brightness = 1 := by
  by_cases hc : s.brightness ≠ 1
  · exact absurd h (by simp [passBrightness, hc])
  · exact ⟨by simp [passBrightness, hc], by simpa using hc⟩

theorem passNoise_snd_false (ops : PILOps) (s : ProcessingSettings)
    (st : PImage × Bool) (h : (passNoise ops s st).2 = false) :
    passNoise ops s st = st ∧ ¬(s.noise_reduction > 0) := by
  by_cases hc : s.noise_reduction > 0
  · exact absurd h (by simp [passNoise, hc])
  · exact ⟨by simp [passNoise, hc], hc⟩

/-- If passes 1-8 still alias the input (`snd = false`) then nothing ran:
the image is the caller's object, it was already RGBA, and every gate is off. -/
theorem pipelineBody_snd_false (ops : PILOps) (img0 : PImage)
    (s : ProcessingSettings) (h : (pipelineBody ops img0 s).2 = false) :
    pipelineBody ops img0 s = (img0, false) ∧ img0.mode = "RGBA" ∧ gatesAllOff s := by
  unfold pipelineBody at h
  obtain ⟨e8, g8⟩ := passNoise_snd_false ops s _ h
  rw [e8] at h
  obtain ⟨e7, g7⟩ := passBrightness_snd_false ops s _ h
  rw [e7] at h
  obtain ⟨e6, g6⟩ := passSaturation_snd_false ops s _ h
  rw [e6] at h
  obtain ⟨e5, g5⟩ := passContrast_snd_false ops s _ h
  rw [e5] at h
  obtain ⟨e4, g4⟩ := passDownscale_snd_false ops s _ h
  rw [e4] at h
  obtain ⟨e3, g3⟩ := passSharpen_snd_false ops s _ h
  rw [e3] at h
  obtain ⟨e2, g2⟩ := passBlur_snd_false ops s _ h
  rw [e2] at h
  obtain ⟨e1, g1⟩ := passUpscale_snd_false ops s _ h
  rw [e1] at h
  obtain ⟨e0, hm⟩ := passConvert_snd_false ops img0 h
  exact ⟨pipelineBody_noop ops img0 s hm ⟨g1, g2, g3, g4, g5, g6, g7, g8⟩,
    hm, g1, g2, g3, g4, g5, g6, g7, g8⟩

/-! ## Discovery lemmas -/

/-- The seen set only grows during a walk. -/
theorem scanForest_seen_mono (f : ZForest) :
    ∀ (base : String) (st : ScanState) (x : String),
      x ∈ st.seen → x ∈ (scanForest base f st).seen := by
  induction f with
  | nil => exact fun base st x hx => hx
  | entry name isZip extractOk contents rest ihc ihr =>
    intro base st x hx
    simp only [scanForest]
    apply ihr
    split_ifs with h1 h2 h3 h4
    · exact List.mem_cons_of_mem _ hx
    · exact ihc _ _ x (by simp [tempAdd, mkdtemp, seenAdd]; exact Or.inr hx)
    · simp only [tempAdd, mkdtemp, seenAdd]
      exact List.mem_cons_of_mem _ hx
    · exact List.mem_cons_of_mem _ hx
    · exact hx

theorem ScanInv_imageAdd (fp : String) (st : ScanState) (h : ScanInv st)
    (hfp : fp ∉ st.seen) : ScanInv (imageAdd fp st) := by
  obtain ⟨hn, hm, hc⟩ := h
  refine ⟨?_, ?_, hc⟩
  · have : fp ∉ st.images := fun hmem => hfp (hm fp hmem)
    simp [imageAdd, List.nodup_append, hn, this]
  · intro i hi
    rcases List.mem_append.1 hi with hi | hi
    · exact List.mem_cons_of_mem _ (hm i hi)
    · simp only [List.mem_singleton] at hi
      exact hi ▸ List.mem_cons_self _ _

theorem ScanInv_seenAdd (fp : String) (st : ScanState) (h : ScanInv st) :
    ScanInv (seenAdd fp st) :=
  ⟨h.1, fun i hi => List.mem_cons_of_mem _ (h.2.1 i hi), h.2.2⟩

theorem ScanInv_tempAdd_mkdtemp (st : ScanState) (h : ScanInv st) :
    ScanInv (tempAdd (tmpName st) (mkdtemp st)) := by
  obtain ⟨hn, hm, hc⟩ := h
  exact ⟨hn, hm, by simp [tempAdd, mkdtemp, hc]⟩

/-- A walk preserves the discovery invariant. -/
theorem scanForest_inv (f : ZForest) :
    ∀ (base : String) (st : ScanState), ScanInv st → ScanInv (scanForest base f st) := by
  induction f with
  | nil => exact fun base st h => h
  | entry name isZip extractOk contents rest ihc ihr =>
    intro base st h
    simp only [scanForest]
    apply ihr
    split_ifs with h1 h2 h3 h4
    · exact ScanInv_imageAdd _ st h h1.2
    · exact ihc _ _ (ScanInv_tempAdd_mkdtemp _ (ScanInv_seenAdd _ st h))
    · exact ScanInv_tempAdd_mkdtemp _ (ScanInv_seenAdd _ st h)
    · exact ScanInv_seenAdd _ st h
    · exact h

/-- After a walk, every relevant top-level walk path is in the seen set. -/
theorem scanForest_post (f : ZForest) :
    ∀ (base : String) (st : ScanState) (p : String),
      p ∈ topRelevantPaths base f → p ∈ (scanForest base f st).seen := by
  induction f with
  | nil => intro base st p hp; exact absurd hp (List.not_mem_nil p)
  | entry name isZip extractOk contents rest ihc ihr =>
    intro base st p hp
    simp only [topRelevantPaths] at hp
    by_cases hr : relevantName name
    · rw [if_pos hr] at hp
      rcases List.mem_cons.1 hp with rfl | hp'
      · simp only [scanForest]
        apply scanForest_seen_mono rest
        split_ifs with h1 h2 h3 h4
        · exact List.mem_cons_self _ _
        · exact scanForest_seen_mono contents _ _ _
            (by simp [tempAdd, mkdtemp, seenAdd])
        · simp [tempAdd, mkdtemp, seenAdd]
        · simp [seenAdd]
        · rcases hr with hs | hz
          · by_contra hns
            exact h1 ⟨hs, hns⟩
          · by_contra hns
            exact h2 ⟨hz, hns⟩
      · simp only [scanForest]
        exact ihr _ _ p hp'
    · rw [if_neg hr] at hp
      simp only [scanForest]
      exact ihr _ _ p hp

/-- A walk is a no-op once every relevant top-level walk path is already
seen. -/
theorem scanForest_noop (f : ZForest) :
    ∀ (base : String) (st : ScanState),
      (∀ p ∈ topRelevantPaths base f, p ∈ st.seen) → scanForest base f st = st := by
  induction f with
  | nil => exact fun base st _ => rfl
  | entry name isZip extractOk contents rest ihc ihr =>
    intro base st h
    have hstep : (if (lowerStr (extOfName name)) ∈ SUPPORTED_EXTENSIONS ∧
          (base ++ "/" ++ name) ∉ st.seen then
        imageAdd (base ++ "/" ++ name) st
      else if (lowerStr (extOfName name)) = ".zip" ∧
          (base ++ "/" ++ name) ∉ st.seen then
        if isZip then
          if extractOk then
            scanForest (tmpName (seenAdd (base ++ "/" ++ name) st)) contents
              (tempAdd (tmpName (seenAdd (base ++ "/" ++ name) st))
                (mkdtemp (seenAdd (base ++ "/" ++ name) st)))
          else
            tempAdd (tmpName (seenAdd (base ++ "/" ++ name) st))
              (mkdtemp (seenAdd (base ++ "/" ++ name) st))
        else seenAdd (base ++ "/" ++ name) st
      else st) = st := by
      have hseen : relevantName name → (base ++ "/" ++ name) ∈ st.seen := by
        intro hr
        apply h
        simp only [topRelevantPaths, if_pos hr]
        exact List.mem_cons_self _ _
      split_ifs with h1 h2 h3 h4
      · exact absurd (hseen (Or.inl h1.1)) h1.2
      · exact absurd (hseen (Or.inr h2.1)) h2.2
      · exact absurd (hseen (Or.inr h2.1)) h2.2
      · exact absurd (hseen (Or.inr h2.1)) h2.2
      · rfl
    simp only [scanForest]
    rw [hstep]
    apply ihr
    intro p hp
    apply h
    simp only [topRelevantPaths]
    by_cases hr : relevantName name
    · rw [if_pos hr]; exact List.mem_cons_of_mem _ hp
    · rw [if_neg hr]; exact hp

/-- Walking the same directory twice equals walking it once. -/
theorem scanForest_idem (f : ZForest) (base : String) (st : ScanState) :
    scanForest base f (scanForest base f st) = scanForest base f st :=
  scanForest_noop f base _ (fun p hp => scanForest_post f base st p hp)

/-- One `collect_images` loop iteration preserves the invariant. -/
theorem collectStep_inv (fs : String → PathNode) (st : ScanState) (raw : String)
    (h : ScanInv st) : ScanInv (collectStep fs st raw) := by
  unfold collectStep
  cases hnode : fs (normPath raw) with
  | missing => exact h
  | dirNode entries => exact scanForest_inv entries _ st h
  | fileNode isZip extractOk entries =>
    dsimp only
    split_ifs with h1 h2 h3
    · exact scanForest_inv entries _ _ (ScanInv_tempAdd_mkdtemp st h)
    · exact ScanInv_tempAdd_mkdtemp st h
    · exact ScanInv_imageAdd _ st h h3.2
    · exact h

theorem foldl_collectStep_inv (fs : String → PathNode) (paths : List String) :
    ∀ st, ScanInv st → ScanInv (paths.foldl (collectStep fs) st) := by
  induction paths with
  | nil => exact fun st h => h
  | cons p rest ih => exact fun st h => ih _ (collectStep_inv fs st p h)

/-- The final state of `collect_images` satisfies the invariant. -/
theorem collect_images_inv (fs : String → PathNode) (paths : List String) :
    ScanInv (collect_images fs paths) :=
  foldl_collectStep_inv fs paths initState
    ⟨List.nodup_nil, by simp [initState], rfl⟩

/-- Processing the same user path twice is the same as processing it once,
provided the path is a directory or a non-ZIP file.  (For a ZIP file the
second iteration re-extracts into a fresh temp directory.) -/
theorem collectStep_idem (fs : String → PathNode) (st : ScanState) (raw : String)
    (hp : (∃ es, fs (normPath raw) = .dirNode es) ∨
          (∃ ok es, fs (normPath raw) = .fileNode false ok es)) :
    collectStep fs (collectStep fs st raw) raw = collectStep fs st raw := by
  rcases hp with ⟨es, hnode⟩ | ⟨ok, es, hnode⟩
  · unfold collectStep
    rw [hnode]
    exact scanForest_idem es _ st
  · unfold collectStep
    rw [hnode]
    simp only [Bool.false_eq_true, if_false]
    by_cases hc : (lowerStr (extOfName (fileName (normPath raw)))) ∈ SUPPORTED_EXTENSIONS ∧
        normPath raw ∉ st.seen
    · simp only [if_pos hc]
      rw [if_neg]
      intro hc2
      exact hc2.2 (by simp [imageAdd])
    · simp only [if_neg hc]

/-- Python's `int()` of a natural number cast to a rational is the number. -/
theorem pyInt_natCast (n : ℕ) : pyInt (n : ℚ) = n := by
  unfold pyInt
  rw [if_neg (not_lt.mpr (by positivity))]
  exact Int.floor_natCast n

/-- Evaluate `pyInt` on a nonnegative rational from its floor bounds. -/
theorem pyInt_eq_of_bounds (q : ℚ) (n : ℤ) (h0 : ¬(q < 0))
    (hl : (n : ℚ) ≤ q) (hu : q < n + 1) : pyInt q = n := by
  unfold pyInt
  rw [if_neg h0]
  exact Int.floor_eq_iff.2 ⟨hl, hu⟩

/-- Unfold a `mkRat` literal into a quotient of casts. -/
theorem mkRat_val (a : ℤ) (b : ℕ) : (mkRat a b : ℚ) = (a : ℚ) / (b : ℚ) := by
  rw [Rat.mkRat_eq_divInt, Rat.divInt_eq_div]
  push_cast
  rfl

/-! ## Claim theorems -/

/-- C1: for every valid source size and in-range settings, the pair
returned by `get_output_dimensions` equals the actual width and height of
the buffer returned by running the full `process_image` pipeline on a
buffer of that source size. -/
theorem C1_predictor_matches_pipeline (ops : PILOps) (img : PImage)
    (s : ProcessingSettings) (_hw : 0 < img.width) (_hh : 0 < img.height)
    (_hr : settingsInRange s) :
    ((process_image ops img s).1.width, (process_image ops img s).1.height) =
      get_output_dimensions img.width img.height s :=
  process_image_dims ops img s

/-- C1 witness: the refinement instantiated on a 100x100 RGBA buffer with
the concrete 2x / 0.9 scenario settings. -/
theorem C1_predictor_matches_pipeline_witness :
    (0 < img100.width ∧ 0 < img100.height ∧ settingsInRange scenarioSettings) ∧
    ((process_image trivialOps img100 scenarioSettings).1.width,
      (process_image trivialOps img100 scenarioSettings).1.height) =
      get_output_dimensions img100.width img100.height scenarioSettings :=
  ⟨⟨by decide, by decide, by decide⟩,
    C1_predictor_matches_pipeline trivialOps img100 scenarioSettings
      (by decide) (by decide) (by decide)⟩

/-- C2 counterexample: for the in-range settings with `upscale_factor = 1`
and `downscale_factor = 0.97`, a 5x5 source yields 4x4 from the code
(truncation) but 5x5 from the spec's rounding formula (`round(4.85) = 5`),
so the claimed formula is wrong. -/
theorem C2_round_formula_counterexample :
    settingsInRange truncSettings ∧
    get_output_dimensions 5 5 truncSettings ≠ predictDimsSpecRound 5 5 truncSettings := by
  refine ⟨by decide, ?_⟩
  have hdf : truncSettings.downscale_factor = mkRat 97 100 := rfl
  have hupc : ((truncSettings.upscale_factor : ℕ) : ℚ) = 1 := Nat.cast_one
  have hpy : pyInt (((5 : ℕ) : ℚ) * truncSettings.downscale_factor) = 4 := by
    apply pyInt_eq_of_bounds <;> rw [hdf, mkRat_val] <;> push_cast <;> norm_num
  have hcode : get_output_dimensions 5 5 truncSettings = (4, 4) := by
    show (max 1 (pyInt (((5 : ℕ) : ℚ) * truncSettings.downscale_factor)).toNat,
          max 1 (pyInt (((5 : ℕ) : ℚ) * truncSettings.downscale_factor)).toNat) = (4, 4)
    rw [hpy]
    decide
  have hval : ((5 : ℕ) : ℚ) * (truncSettings.upscale_factor : ℚ) *
      truncSettings.downscale_factor = 97 / 20 := by
    rw [hdf, hupc, mkRat_val]
    push_cast
    norm_num
  have hround : round (((5 : ℕ) : ℚ) * (truncSettings.upscale_factor : ℚ) *
      truncSettings.downscale_factor) = 5 := by
    rw [hval, round_eq]
    rw [show (97 : ℚ) / 20 + 1 / 2 = 107 / 20 by norm_num]
    rw [Int.floor_eq_iff]
    norm_num
  have hspec : predictDimsSpecRound 5 5 truncSettings = (5, 5) := by
    show (max 1 (round (((5 : ℕ) : ℚ) * (truncSettings.upscale_factor : ℚ) *
            truncSettings.downscale_factor)).toNat,
          max 1 (round (((5 : ℕ) : ℚ) * (truncSettings.upscale_factor : ℚ) *
            truncSettings.downscale_factor)).toNat) = (5, 5)
    rw [hround]
    decide
  rw [hcode, hspec]
  decide

/-- C2 amended: for positive source dimensions and in-range settings the
code computes the product truncated (floored), not rounded, with a minimum
of 1; the concrete 100x100, 2x, 0.9 scenario does give 180x180. -/
theorem C2_floor_formula :
    (∀ (w h : ℕ) (s : ProcessingSettings), 0 < w → 0 < h → settingsInRange s →
      get_output_dimensions w h s = predictDimsFloor w h s) ∧
    get_output_dimensions 100 100 scenarioSettings = (180, 180) := by
  constructor
  · intro w h s hw hh hr
    obtain ⟨hu1, _, _, _, _, _, _, _, hd1, hd2, _⟩ := hr
    have hu0 : 0 < s.upscale_factor := hu1
    by_cases hup : s.upscale_factor > 1 <;> by_cases hdf : s.downscale_factor < 1 <;>
      simp only [get_output_dimensions, predictDimsFloor, hup, hdf, if_true, if_false,
        ite_true, ite_false]
    · have hcast : ∀ n : ℕ, ((n * s.upscale_factor : ℕ) : ℚ) * s.downscale_factor =
          (n : ℚ) * s.upscale_factor * s.downscale_factor := by
        intro n; push_cast; ring
      rw [hcast w, hcast h]
    · have hdf1 : s.downscale_factor = 1 := le_antisymm hd2 (not_lt.1 hdf)
      have hval : ∀ n : ℕ, 0 < n →
          max 1 (pyInt ((n : ℚ) * s.upscale_factor * s.downscale_factor)).toNat =
            n * s.upscale_factor := by
        intro n hn
        rw [hdf1, mul_one, ← Nat.cast_mul, pyInt_natCast]
        simp only [Int.toNat_natCast]
        exact Nat.max_eq_right (Nat.mul_pos hn hu0)
      rw [hval w hw, hval h hh]
    · have hu : s.upscale_factor = 1 := Nat.le_antisymm (not_lt.1 hup) hu1
      have hcast : ∀ n : ℕ, (n : ℚ) * s.downscale_factor =
          (n : ℚ) * s.upscale_factor * s.downscale_factor := by
        intro n; rw [hu]; push_cast; ring
      rw [hcast w, hcast h]
    · have hu : s.upscale_factor = 1 := Nat.le_antisymm (not_lt.1 hup) hu1
      have hdf1 : s.downscale_factor = 1 := le_antisymm hd2 (not_lt.1 hdf)
      have hval : ∀ n : ℕ, 0 < n →
          max 1 (pyInt ((n : ℚ) * s.upscale_factor * s.downscale_factor)).toNat = n := by
        intro n hn
        rw [hu, hdf1]
        push_cast
        rw [mul_one, mul_one, pyInt_natCast]
        simp only [Int.toNat_natCast]
        exact Nat.max_eq_right hn
      rw [hval w hw, hval h hh]
  · have hdf : scenarioSettings.downscale_factor = mkRat 9 10 := rfl
    have hpy : pyInt (((100 * scenarioSettings.upscale_factor : ℕ) : ℚ) *
        scenarioSettings.downscale_factor) = 180 := by
      show pyInt (((200 : ℕ) : ℚ) * scenarioSettings.downscale_factor) = 180
      apply pyInt_eq_of_bounds <;> rw [hdf, mkRat_val] <;> push_cast <;> norm_num
    show (max 1 (pyInt (((100 * scenarioSettings.upscale_factor : ℕ) : ℚ) *
            scenarioSettings.downscale_factor)).toNat,
          max 1 (pyInt (((100 * scenarioSettings.upscale_factor : ℕ) : ℚ) *
            scenarioSettings.downscale_factor)).toNat) = (180, 180)
    rw [hpy]
    decide

/-- C2 witness: the floor formula instantiated at the 5x5 input that
separates it from rounding. -/
theorem C2_floor_formula_witness :
    (0 < 5 ∧ 0 < 5 ∧ settingsInRange truncSettings) ∧
    get_output_dimensions 5 5 truncSettings = predictDimsFloor 5 5 truncSettings :=
  ⟨⟨by decide, by decide, by decide⟩,
    (C2_floor_formula).1 5 5 truncSettings (by decide) (by decide) (by decide)⟩

/-- C6 counterexample: the settings dataclass performs no validation, so a
value with `upscale_factor = 100` (documented range 1-8) is representable
and the pipeline arithmetic happily consumes it. -/
theorem C6_no_validation_counterexample :
    ¬ settingsInRange badSettings ∧
    get_output_dimensions 10 10 badSettings = (970, 970) := by
  refine ⟨by decide, ?_⟩
  have hdf : badSettings.downscale_factor = mkRat 97 100 := rfl
  have hpy : pyInt (((10 * badSettings.upscale_factor : ℕ) : ℚ) *
      badSettings.downscale_factor) = 970 := by
    show pyInt (((1000 : ℕ) : ℚ) * badSettings.downscale_factor) = 970
    apply pyInt_eq_of_bounds <;> rw [hdf, mkRat_val] <;> push_cast <;> norm_num
  show (max 1 (pyInt (((10 * badSettings.upscale_factor : ℕ) : ℚ) *
          badSettings.downscale_factor)).toNat,
        max 1 (pyInt (((10 * badSettings.upscale_factor : ℕ) : ℚ) *
          badSettings.downscale_factor)).toNat) = (970, 970)
  rw [hpy]
  decide

/-- C6 amended: the `ProcessingSettings` constructor stores every field
verbatim — it neither rejects nor clamps any value, so range enforcement
happens only outside the settings model. -/
theorem C6_constructor_stores_verbatim (u sa sth et nr jq : ℕ)
    (br shr df c sat b : ℚ) (fmt : String) :
    (ProcessingSettings.mk u br shr sa sth df et c sat b nr fmt jq).upscale_factor = u ∧
    (ProcessingSettings.mk u br shr sa sth df et c sat b nr fmt jq).blur_radius = br ∧
    (ProcessingSettings.mk u br shr sa sth df et c sat b nr fmt jq).sharpen_radius = shr ∧
    (ProcessingSettings.mk u br shr sa sth df et c sat b nr fmt jq).sharpen_amount = sa ∧
    (ProcessingSettings.mk u br shr sa sth df et c sat b nr fmt jq).sharpen_threshold = sth ∧
    (ProcessingSettings.mk u br shr sa sth df et c sat b nr fmt jq).downscale_factor = df ∧
    (ProcessingSettings.mk u br shr sa sth df et c sat b nr fmt jq).edge_trim = et ∧
    (ProcessingSettings.mk u br shr sa sth df et c sat b nr fmt jq).contrast = c ∧
    (ProcessingSettings.mk u br shr sa sth df et c sat b nr fmt jq).saturation = sat ∧
    (ProcessingSettings.mk u br shr sa sth df et c sat b nr fmt jq).brightness = b ∧
    (ProcessingSettings.mk u br shr sa sth df et c sat b nr fmt jq).noise_reduction = nr ∧
    (ProcessingSettings.mk u br shr sa sth df et c sat b nr fmt jq).output_format = fmt ∧
    (ProcessingSettings.mk u br shr sa sth df et c sat b nr fmt jq).jpeg_quality = jq :=
  ⟨rfl, rfl, rfl, rfl, rfl, rfl, rfl, rfl, rfl, rfl, rfl, rfl, rfl⟩

/-- C9 counterexample: for PNG output the estimator encodes at compression
level 6 while the final save encodes at level 1 — the trial encode uses a
higher (slower), not cheaper, compression effort. -/
theorem C9_png_effort_counterexample :
    estimate_output_size_call pngSettings = .png 6 ∧
    save_image_call pngSettings = .png 1 ∧ ¬(6 < 1) := by
  refine ⟨by decide, by decide, by decide⟩

/-- C9 amended: JPEG and WEBP trial encodes use exactly the configured
quality of the final save, while for PNG the estimator uses compression
level 6 against the final save's level 1 (higher effort, not cheaper). -/
theorem C9_encode_params (s : ProcessingSettings) :
    (upperStr s.output_format = "JPEG" ∨ upperStr s.output_format = "JPG" →
      estimate_output_size_call s = .jpeg s.jpeg_quality ∧
      save_image_call s = .jpeg s.jpeg_quality) ∧
    (upperStr s.output_format = "WEBP" →
      estimate_output_size_call s = .webp s.jpeg_quality ∧
      save_image_call s = .webp s.jpeg_quality) ∧
    (¬(upperStr s.output_format = "JPEG" ∨ upperStr s.output_format = "JPG") →
      upperStr s.output_format ≠ "WEBP" →
      estimate_output_size_call s = .png 6 ∧ save_image_call s = .png 1 ∧ 1 < 6) := by
  refine ⟨fun hj => ?_, fun hw => ?_, fun hnj hnw => ?_⟩
  · constructor <;> simp [estimate_output_size_call, save_image_call, hj]
  · have hnj : ¬(upperStr s.output_format = "JPEG" ∨ upperStr s.output_format = "JPG") := by
      rw [hw]; decide
    constructor <;>
      simp [estimate_output_size_call, save_image_call, hnj, hw]
  · refine ⟨?_, ?_, by decide⟩ <;>
      simp [estimate_output_size_call, save_image_call, hnj, hnw]

/-- C9 witness: the amended statement instantiated at the default PNG
settings. -/
theorem C9_encode_params_witness :
    (¬(upperStr pngSettings.output_format = "JPEG" ∨
        upperStr pngSettings.output_format = "JPG") ∧
      upperStr pngSettings.output_format ≠ "WEBP") ∧
    (estimate_output_size_call pngSettings = .png 6 ∧
      save_image_call pngSettings = .png 1 ∧ 1 < 6) :=
  ⟨⟨by decide, by decide⟩, (C9_encode_params pngSettings).2.2 (by decide) (by decide)⟩

/-- C3: with every filter at its no-op value and an RGBA input buffer, the
pipeline returns the input buffer pixel-identical (in fact the very same
object, unmutated, since the erosion pass is also off). -/
theorem C3_identity_law (ops : PILOps) (img : PImage) (s : ProcessingSettings)
    (hm : img.mode = "RGBA") (h1 : s.upscale_factor = 1) (h2 : s.blur_radius = 0)
    (h3 : s.sharpen_amount = 0) (h4 : s.downscale_factor = 1) (h5 : s.contrast = 1)
    (h6 : s.saturation = 1) (h7 : s.brightness = 1) (h8 : s.noise_reduction = 0)
    (h9 : s.edge_trim = 0) :
    (process_image ops img s).1 = img := by
  have hg : gatesAllOff s := by
    refine ⟨?_, ?_, ?_, ?_, h5, h6, h7, ?_⟩ <;> simp [h1, h2, h3, h4, h8]
  have hb := pipelineBody_noop ops img s hm hg
  simp [process_image, hb, h9]

/-- C3 witness: the identity law instantiated at a concrete opaque RGBA
buffer and the concrete no-op settings. -/
theorem C3_identity_law_witness :
    (imgOpaque.mode = "RGBA" ∧ noopSettings.upscale_factor = 1 ∧
      noopSettings.blur_radius = 0 ∧ noopSettings.sharpen_amount = 0 ∧
      noopSettings.downscale_factor = 1 ∧ noopSettings.contrast = 1 ∧
      noopSettings.saturation = 1 ∧ noopSettings.brightness = 1 ∧
      noopSettings.noise_reduction = 0 ∧ noopSettings.edge_trim = 0) ∧
    (process_image trivialOps imgOpaque noopSettings).1 = imgOpaque :=
  ⟨⟨rfl, rfl, rfl, rfl, rfl, rfl, rfl, rfl, rfl, rfl⟩,
    C3_identity_law trivialOps imgOpaque noopSettings rfl rfl rfl rfl rfl rfl rfl
      rfl rfl rfl⟩

/-- C7 counterexample: an RGBA input processed with every stage disabled
except `edge_trim = 1` has its own alpha channel overwritten in place — the
caller's buffer changes from alpha 255 to alpha 0 at pixel (0,0). -/
theorem C7_input_mutated_counterexample :
    alphaOf (process_image trivialOps imgHalo trimSettings).2 0 0 = 0 ∧
    alphaOf imgHalo 0 0 = 255 := by
  constructor
  · rfl
  · rfl

/-- C7 amended: the caller's buffer is returned unchanged except in exactly
one case — the input is already RGBA, every pass 1-8 gate is off (so `img`
still aliases the input) and `edge_trim > 0`; then the erosion pass writes
the eroded alpha back into the caller's buffer, which becomes the result. -/
theorem C7_mutation_characterisation (ops : PILOps) (img : PImage)
    (s : ProcessingSettings) :
    (process_image ops img s).2 =
      if img.mode = "RGBA" ∧ gatesAllOff s ∧ s.edge_trim > 0
      then (process_image ops img s).1 else img := by
  by_cases hc : img.mode = "RGBA" ∧ gatesAllOff s ∧ s.edge_trim > 0
  · obtain ⟨hm, hg, ht⟩ := hc
    have hb := pipelineBody_noop ops img s hm hg
    rw [if_pos ⟨hm, hg, ht⟩]
    simp only [process_image, hb]
    rw [if_pos ⟨ht, hm⟩]
    simp
  · rw [if_neg hc]
    simp only [process_image]
    by_cases he : s.edge_trim > 0 ∧ (pipelineBody ops img s).1.mode = "RGBA"
    · rw [if_pos he]
      cases hsnd : (pipelineBody ops img s).2 with
      | false =>
        obtain ⟨_, hm, hg⟩ := pipelineBody_snd_false ops img s hsnd
        exact absurd ⟨hm, hg, he.1⟩ hc
      | true => simp [hsnd]
    · rw [if_neg he]

/-- C8: eroding one more pass never enlarges the opaque region — any pixel
still opaque after running the pipeline with `edge_trim = k + 1` is also
opaque after running it with `edge_trim = k`, all other settings equal. -/
theorem C8_erosion_monotone (ops : PILOps) (img : PImage)
    (s : ProcessingSettings) (k x y : ℕ)
    (h : alphaOf (process_image ops img { s with edge_trim := k + 1 }).1 x y ≠ 0) :
    alphaOf (process_image ops img { s with edge_trim := k }).1 x y ≠ 0 := by
  have hb1 : pipelineBody ops img { s with edge_trim := k + 1 } =
      pipelineBody ops img s := rfl
  have hb0 : pipelineBody ops img { s with edge_trim := k } =
      pipelineBody ops img s := rfl
  have hmode := pipelineBody_mode ops img s
  simp only [process_image, hb1] at h
  simp only [process_image, hb0]
  rw [if_pos ⟨Nat.succ_pos k, hmode⟩] at h
  simp only [alphaOf_putalpha] at h
  cases k with
  | zero =>
    rw [if_neg (by simp)]
    show alphaOf (pipelineBody ops img s).1 x y ≠ 0
    have h' : minFilter3 (pipelineBody ops img s).1.width
        (pipelineBody ops img s).1.height (alphaOf (pipelineBody ops img s).1) x y ≠ 0 := h
    have hle := minFilter3_le_self (pipelineBody ops img s).1.width
      (pipelineBody ops img s).1.height (alphaOf (pipelineBody ops img s).1) x y
    omega
  | succ j =>
    rw [if_pos ⟨Nat.succ_pos j, hmode⟩]
    simp only [alphaOf_putalpha]
    have hle := erodeN_succ_le (pipelineBody ops img s).1.width
      (pipelineBody ops img s).1.height (j + 1) (alphaOf (pipelineBody ops img s).1) x y
    omega

/-- C8 witness: monotonicity instantiated on a fully opaque 1x1 buffer
going from one erosion pass to none. -/
theorem C8_erosion_monotone_witness :
    alphaOf (process_image trivialOps imgOpaque
        { noopSettings with edge_trim := 0 + 1 }).1 0 0 ≠ 0 ∧
    alphaOf (process_image trivialOps imgOpaque
        { noopSettings with edge_trim := 0 }).1 0 0 ≠ 0 :=
  ⟨by decide, C8_erosion_monotone trivialOps imgOpaque noopSettings 0 0 0 (by decide)⟩

/-- C4 counterexample: feeding the same ZIP archive path twice does not
yield the same image set — the second occurrence is extracted into a fresh
temporary directory, producing a second copy of every contained image under
a new path. -/
theorem C4_zip_duplicate_counterexample :
    "/tmp/imgupscaler_1/x.png" ∈ (collect_images fsZip ["a.zip", "a.zip"]).images ∧
    "/tmp/imgupscaler_1/x.png" ∉ (collect_images fsZip ["a.zip"]).images := by
  constructor
  · decide
  · decide

/-- C4 amended: discovery is idempotent on duplicate inputs for file and
directory paths (ZIP paths are re-extracted each time instead). -/
theorem C4_duplicate_file_dir_idempotent (fs : String → PathNode) (p : String)
    (hp : (∃ es, fs (normPath p) = .dirNode es) ∨
          (∃ ok es, fs (normPath p) = .fileNode false ok es)) :
    (collect_images fs [p, p]).images = (collect_images fs [p]).images := by
  have hstep : collect_images fs [p, p] = collect_images fs [p] := by
    show collectStep fs (collectStep fs initState p) p = collectStep fs initState p
    exact collectStep_idem fs initState p hp
  rw [hstep]

/-- C4 witness: duplicate-input idempotence instantiated on a directory
holding one image. -/
theorem C4_duplicate_file_dir_idempotent_witness :
    ((∃ es, fsDir (normPath "d") = .dirNode es) ∨
      (∃ ok es, fsDir (normPath "d") = .fileNode false ok es)) ∧
    (collect_images fsDir ["d", "d"]).images = (collect_images fsDir ["d"]).images :=
  ⟨Or.inl ⟨ZForest.entry "x.png" false true .nil .nil, rfl⟩,
    C4_duplicate_file_dir_idempotent fsDir "d"
      (Or.inl ⟨ZForest.entry "x.png" false true .nil .nil, rfl⟩)⟩

/-- C5 counterexample: deduplication is keyed on the raw path string, not
on a resolved absolute path — the same file reached once relatively and
once absolutely is added twice, and the relative path is returned verbatim
(it does not start with the root, so it is not absolute). -/
theorem C5_resolved_path_counterexample :
    (collect_images fsRel ["a.png", "/cwd/a.png"]).images = ["a.png", "/cwd/a.png"] ∧
    resolveModel "a.png" = resolveModel "/cwd/a.png" ∧
    "a.png".toList.head? ≠ some '/' := by
  refine ⟨by decide, by decide, by decide⟩

/-- C5 amended: within one call each exact path string is added at most
once (first occurrence wins): the returned image list has no duplicates. -/
theorem C5_images_nodup (fs : String → PathNode) (paths : List String) :
    (collect_images fs paths).images.Nodup :=
  (collect_images_inv fs paths).1

/-- C10: every temporary extraction directory `collect_images` creates is
included in the `temp_dirs` list it returns — also when extraction of the
corresponding ZIP fails. -/
theorem C10_created_dirs_returned (fs : String → PathNode) (paths : List String) :
    ∀ d ∈ (collect_images fs paths).created,
      d ∈ (collect_images fs paths).temp_dirs := by
  intro d hd
  rw [← (collect_images_inv fs paths).2.2]
  exact hd

/-- C10 witness: a ZIP that `is_zipfile` accepts but whose extraction fails
still leaves its freshly created temp directory in the returned handles. -/
theorem C10_created_dirs_returned_witness :
    "/tmp/imgupscaler_0" ∈ (collect_images fsBadZip ["b.zip"]).created ∧
    "/tmp/imgupscaler_0" ∈ (collect_images fsBadZip ["b.zip"]).temp_dirs :=
  ⟨by decide, C10_created_dirs_returned fsBadZip ["b.zip"] "/tmp/imgupscaler_0"
    (by decide)⟩
